import Mathlib

/-!
Verification of the jax-js core against its design specification.

The development shallowly embeds the parts of the code base that the
specified properties talk about:

* the CPU reference backend (`src/backend/cpu.ts`): slot allocation,
  reference counting, reads, and the elementwise op interpreter;
* the padding-policy sub-algorithm `padtypeToPads` (`src/lax.ts`);
* the shape-tracker view engine (`ShapeTracker`, `pool`, `poolTranspose`,
  `unravelAlu`): the module `src/shape.ts` / `src/frontend/convolution.ts`
  itself is not part of the available sources, so it is modelled from the
  specification text, with each such definition marked in its doc comment.

Machine numbers are modelled exactly: buffer cells are integers (every
numeric value exercised by the specified properties is exactly
representable in float32, and index arithmetic is integer arithmetic).
-/

namespace JaxJs

/-- Error taxonomy of the backend and padding layers, as described in the
specification's error-handling design: `slotError` carries the offending
slot handle, `sizeMismatch` reports initial-data length disagreeing with the
requested allocation size, `unknownPaddingMode` an unrecognized symbolic
padding token, and `typeError` models a JavaScript `TypeError` from
destructuring malformed argument arrays. -/
inductive BError where
  | slotError (slot : Nat)
  | sizeMismatch
  | unknownPaddingMode (token : String)
  | typeError
deriving DecidableEq, Repr

/-- Modelled from the spec: the shape-tracker engine (`src/shape.ts`) is not
among the available sources.  A tracker is represented by its denotation:
the current logical `shape`, and `eval`, the evaluation of the ALU
index/validity expression pair returned by `toAluExp` at a concrete list of
logical indices.  This collapses `toAluExp` followed by `AluExp.evaluate`
into one function, which is exactly how every specified property consumes a
tracker. -/
structure ShapeTracker where
  shape : List Nat
  eval : List Int → Int × Bool

/-- Row-major strides for a shape: the stride of each dimension is the
product of the dimension sizes to its right. -/
def defaultStrides : List Nat → List Nat
  | [] => []
  | _ :: rest => rest.prod :: defaultStrides rest

/-- Flat buffer offset of a coordinate list under row-major strides. -/
def ravel (shape : List Nat) (coords : List Int) : Int :=
  (List.zipWith (fun (s : Nat) (c : Int) => c * s) (defaultStrides shape) coords).sum

/-- Modelled from the spec: `ShapeTracker.fromShape`, the root constructor,
an identity view with row-major strides and an always-true validity
predicate. -/
def fromShape (shape : List Nat) : ShapeTracker :=
  { shape := shape, eval := fun coords => (ravel shape coords, true) }

/-- Modelled from the spec: the evaluation of `unravelAlu(shape, gidx)`
(`src/shape.ts`), converting a flat index into per-dimension logical
coordinates: coordinate `d` is `gidx / stride_d % shape_d` with row-major
strides and floor division. -/
def unravelIdx : List Nat → Int → List Int
  | [], _ => []
  | d :: rest, g => g / (rest.prod : Int) % (d : Int) :: unravelIdx rest g

/-- Output window-position dimensions of `pool`: per dimension,
`(size - window) / stride + 1`. -/
def poolOutDims : List Nat → List Nat → List Nat → List Nat
  | i :: is, k :: ks, s :: ss => ((i - k) / s + 1) :: poolOutDims is ks ss
  | _, _, _ => []

/-- Base coordinates read by a pooled view: per dimension
`o * stride + w` for window position `o` and in-window offset `w`. -/
def poolBase : List Int → List Nat → List Int → List Int
  | o :: os, s :: ss, w :: ws => (o * (s : Int) + w) :: poolBase os ss ws
  | _, _, _ => []

/-- Modelled from the spec: `pool(window, strides)`
(`src/frontend/convolution.ts` is not among the available sources).  Input
rank `r` produces rank `2r`: the first `r` dimensions are window positions
advancing by `strides`, the trailing `r` dimensions are in-window offsets,
and logical indices `(o, w)` read the original tensor at
`o_d * strides[d] + w_d`; validity is the original tracker's validity. -/
def pool (st : ShapeTracker) (window strides : List Nat) : ShapeTracker :=
  let r := st.shape.length
  { shape := poolOutDims st.shape window strides ++ window
    eval := fun coords =>
      st.eval (poolBase (coords.take r) strides (coords.drop r)) }

/-- Per-dimension validity test of `poolTranspose`: the window-position
candidate `q_d = i_d - w_d` must be non-negative, divisible by the stride,
and its quotient must be a legal window position. -/
def ptValid : List Int → List Nat → List Nat → Bool
  | q :: qs, s :: ss, o :: os =>
    (decide (0 ≤ q) && (q % (s : Int) == 0) && (q / (s : Int) < (o : Int)))
      && ptValid qs ss os
  | _, _, _ => true

/-- Window-position coordinates recovered by `poolTranspose`: per dimension
the quotient `q_d / stride_d`. -/
def ptCoords : List Int → List Nat → List Int
  | q :: qs, s :: ss => q / (s : Int) :: ptCoords qs ss
  | _, _ => []

/-- Modelled from the spec: `poolTranspose(originalShape, window, strides)`
(`src/frontend/convolution.ts` is not among the available sources), the
adjoint view construction, derived from first principles as the
specification instructs: the tracker has shape `originalShape` followed by
synthesized extra dimensions (here one per axis, of extent `window[d]`,
enumerating the in-window offset `w_d`); a combination is valid only when
the window placement `(i_d - w_d) / strides[d]` is exact and in range and
the underlying pooled tracker is valid there, so that every valid
combination reads the original flat position of `(i_0, …, i_{r-1})`. -/
def poolTranspose (st : ShapeTracker) (origShape window strides : List Nat)
    : ShapeTracker :=
  let r := origShape.length
  let outDims := st.shape.take r
  { shape := origShape ++ window
    eval := fun coords =>
      let iv := coords.take r
      let w := coords.drop r
      let q := List.zipWith (fun a b => a - b) iv w
      let p := st.eval (ptCoords q strides ++ w)
      (p.1, p.2 && ptValid q strides outDims) }

/-- One reference-counted buffer of the CPU backend: a reference count and
the stored cells.  Cells are modelled exactly as integers; the byte-level
`ArrayBuffer`/`Float32Array` encoding is abstracted, with sizes counted in
cells (every value exercised by the specified properties is exactly
representable). -/
structure SlotEntry where
  ref : Int
  buffer : List Int
deriving DecidableEq, Repr

/-- State of a `CPUBackend` instance (`src/backend/cpu.ts`): the `buffers`
map from slot handles to live entries, and the instance-local `nextSlot`
counter. -/
structure CPUState where
  buffers : Nat → Option SlotEntry
  nextSlot : Nat

/-- A freshly constructed `CPUBackend`: empty buffer map, `nextSlot = 1`. -/
def initState : CPUState :=
  { buffers := fun _ => none, nextSlot := 1 }

/-- Point update of the buffer map, the effect of `Map.set` / `Map.delete`
on lookups. -/
def setSlot (m : Nat → Option SlotEntry) (k : Nat) (v : Option SlotEntry) :
    Nat → Option SlotEntry :=
  fun s => if s = k then v else m s

/-- `CPUBackend.malloc(size, initialData?)`: fails with `sizeMismatch` when
`initialData` is present with the wrong length, otherwise stores a fresh
entry with reference count 1 (the zero-filled buffer overwritten by
`initialData` when present) under the current `nextSlot`, increments the
counter, and returns the slot. -/
def malloc (size : Nat) (initialData : Option (List Int)) (st : CPUState) :
    Except BError (Nat × CPUState) :=
  match initialData with
  | some d =>
    if d.length ≠ size then .error .sizeMismatch
    else
      .ok (st.nextSlot,
        { buffers := setSlot st.buffers st.nextSlot (some ⟨1, d⟩),
          nextSlot := st.nextSlot + 1 })
  | none =>
    .ok (st.nextSlot,
      { buffers := setSlot st.buffers st.nextSlot (some ⟨1, List.replicate size 0⟩),
        nextSlot := st.nextSlot + 1 })

/-- `CPUBackend.incRef(slot)`: `SlotError` on an unknown slot, otherwise
increment the entry's reference count. -/
def incRef (slot : Nat) (st : CPUState) : Except BError CPUState :=
  match st.buffers slot with
  | none => .error (.slotError slot)
  | some e =>
    .ok { st with buffers := setSlot st.buffers slot (some { e with ref := e.ref + 1 }) }

/-- `CPUBackend.decRef(slot)`: `SlotError` on an unknown slot, otherwise
decrement the entry's reference count and delete the entry when the count
reaches zero. -/
def decRef (slot : Nat) (st : CPUState) : Except BError CPUState :=
  match st.buffers slot with
  | none => .error (.slotError slot)
  | some e =>
    if e.ref - 1 = 0 then
      .ok { st with buffers := setSlot st.buffers slot none }
    else
      .ok { st with buffers := setSlot st.buffers slot (some { e with ref := e.ref - 1 }) }

/-- `CPUBackend.#getBuffer(slot)`: the stored cells, or `SlotError` when the
slot is unknown or already freed. -/
def getBuffer (st : CPUState) (slot : Nat) : Except BError (List Int) :=
  match st.buffers slot with
  | none => .error (.slotError slot)
  | some e => .ok e.buffer

/-- `CPUBackend.readSync(slot, start?, count?)`: slice of the stored cells,
with `start` defaulting to 0 and `count` to the rest of the buffer. -/
def readSync (slot : Nat) (start? count? : Option Nat) (st : CPUState) :
    Except BError (List Int) := do
  let buffer ← getBuffer st slot
  let start := start?.getD 0
  let count := count?.getD (buffer.length - start)
  .ok ((buffer.drop start).take count)

/-- An already-resolved future: the software backend's asynchronous results
are wrapped synchronous ones, so a future is just its settled outcome. -/
def Future (α : Type) : Type := Except BError α

/-- `CPUBackend.read(slot, start?, count?)`: the asynchronous mirror,
`readSync` wrapped in an already-resolved future. -/
def read (slot : Nat) (start? count? : Option Nat) (st : CPUState) :
    Future (List Int) :=
  readSync slot start? count? st

/-- Backend op kinds implemented by the CPU backend's op table. -/
inductive BackendOp where
  | Add
  | Mul
deriving DecidableEq, Repr

/-- Read of `buf[idx]` for an evaluated ALU index: out-of-range reads
(which the backend never performs on a valid position) yield 0. -/
def getI (buf : List Int) (idx : Int) : Int :=
  if 0 ≤ idx then buf.getD idx.toNat 0 else 0

/-- Value loaded for flat output position `i` from one input: evaluate the
input tracker's index/validity pair at the unravelled coordinates of `i`
and load the indexed cell, substituting 0 when the validity is false. -/
def loadVal (buf : List Int) (tr : ShapeTracker) (i : Nat) : Int :=
  let p := tr.eval (unravelIdx tr.shape (i : Int))
  if p.2 then getI buf p.1 else 0

/-- Loop body of the CPU backend's binary elementwise ops: for every output
position `i` in `[0, c.length)` in order, store
`f (loadVal a asT i) (loadVal b bsT i)` at `c[i]`. -/
def cpuBinOp (f : Int → Int → Int) (a : List Int) (asT : ShapeTracker)
    (b : List Int) (bsT : ShapeTracker) (c : List Int) : List Int :=
  (List.range c.length).foldl
    (fun acc i => acc.set i (f (loadVal a asT i) (loadVal b bsT i))) c

/-- Replace the cells stored at `slot` (the effect of writing through a
typed-array view of a fetched buffer); leaves the state unchanged when the
slot is absent. -/
def writeBuffer (st : CPUState) (slot : Nat) (buf : List Int) : CPUState :=
  match st.buffers slot with
  | none => st
  | some e => { st with buffers := setSlot st.buffers slot (some { e with buffer := buf }) }

/-- `CPUBackend.executeOpSync(op, inputs, shapes, outputs)`: fetch every
input buffer then every output buffer (failing with `SlotError` on a stale
slot), and run the op table's handler, which destructures two inputs with
their trackers and one output; malformed arities fault (`typeError`). -/
def executeOpSync (op : BackendOp) (inputs : List Nat)
    (shapes : List ShapeTracker) (outputs : List Nat) (st : CPUState) :
    Except BError CPUState := do
  let inputBuffers ← inputs.mapM (getBuffer st)
  let outputBuffers ← outputs.mapM (getBuffer st)
  match inputBuffers, shapes, outputBuffers, outputs with
  | [a, b], [asT, bsT], [c], [cslot] =>
    let f : Int → Int → Int :=
      match op with
      | .Add => (· + ·)
      | .Mul => (· * ·)
    .ok (writeBuffer st cslot (cpuBinOp f a asT b bsT c))
  | _, _, _, _ => .error .typeError

/-- `CPUBackend.executeOp(...)`: the asynchronous mirror, `executeOpSync`
wrapped in an already-resolved future. -/
def executeOp (op : BackendOp) (inputs : List Nat)
    (shapes : List ShapeTracker) (outputs : List Nat) (st : CPUState) :
    Future CPUState :=
  executeOpSync op inputs shapes outputs st

/-- End-to-end elementwise demo from the specification's testable
properties: allocate `[1,2,3,4]` and `[10,20,30,40]`, a 4-cell output,
run `Add` with identity trackers over shape `[4]`, and read the output. -/
def runAddDemo : Except BError (List Int) := do
  let r1 ← malloc 4 (some [1, 2, 3, 4]) initState
  let r2 ← malloc 4 (some [10, 20, 30, 40]) r1.2
  let r3 ← malloc 4 none r2.2
  let idT := fromShape [4]
  let st4 ← executeOpSync .Add [r1.1, r2.1] [idT, idT] [r3.1] r3.2
  readSync r3.1 none none st4

/-- One memory-management call against a `CPUBackend` instance, for
reasoning about arbitrary operation sequences. -/
inductive BOp where
  | mallocOp (size : Nat) (initialData : Option (List Int))
  | incRefOp (slot : Nat)
  | decRefOp (slot : Nat)

/-- Apply one memory-management call; a thrown error propagates to the
caller and leaves the backend state unchanged.  Returns the slot handle a
successful `malloc` hands out. -/
def applyOp (op : BOp) (st : CPUState) : CPUState × Option Nat :=
  match op with
  | .mallocOp size initialData =>
    match malloc size initialData st with
    | .ok (s, st') => (st', some s)
    | .error _ => (st, none)
  | .incRefOp s =>
    match incRef s st with
    | .ok st' => (st', none)
    | .error _ => (st, none)
  | .decRefOp s =>
    match decRef s st with
    | .ok st' => (st', none)
    | .error _ => (st, none)

/-- Run a sequence of memory-management calls, collecting in order the slot
handles returned by the successful `malloc` calls. -/
def runOps : CPUState → List BOp → CPUState × List Nat
  | st, [] => (st, [])
  | st, op :: rest =>
    let p := applyOp op st
    let q := runOps p.1 rest
    (q.1, (match p.2 with | some s => [s] | none => []) ++ q.2)

/-- Invariant of a `CPUBackend` instance: every live slot has reference
count at least 1 and a handle below the instance-local counter. -/
def RefInv (st : CPUState) : Prop :=
  ∀ s e, st.buffers s = some e → 1 ≤ e.ref ∧ s < st.nextSlot

/-- Model of JavaScript `String.prototype.toUpperCase()` on the ASCII
tokens the padding policy inspects. -/
def strToUpper (s : String) : String :=
  ⟨s.data.map Char.toUpper⟩

/-- Per-dimension total padding computed in the `SAME`/`SAME_LOWER` branch
of `padtypeToPads`: `max(0, (o - 1)*stride + 1 + (kernel - 1)*dilation -
size)` with `o = (size + stride - 1) / stride`, the value of
`Math.ceil(size / stride)` for positive strides. -/
def padTotalFun (inShape filterShape strides dilation : List Nat) (d : Nat) :
    Nat :=
  let i := inShape.getD d 0
  let s := strides.getD d 0
  let k := filterShape.getD d 0
  let dl := dilation.getD d 0
  let o := (i + s - 1) / s
  (max 0 (((o : Int) - 1) * s + 1 + ((k : Int) - 1) * dl - i)).toNat

/-- `padtypeToPads(inShape, filterShape, strides, dilation, padding)` from
`src/lax.ts`: uppercase the token; `VALID` yields zero padding on every
dimension; `SAME`/`SAME_LOWER` compute per dimension the total padding
`padTotalFun` and split it as `(total >> 1, total - (total >> 1))` for
`SAME` and mirrored for `SAME_LOWER`; any other token is an
`unknownPaddingMode` error.  The `zipn`-and-`map` of the source is
rendered as one indexwise map. -/
def padtypeToPads (inShape filterShape strides dilation : List Nat)
    (padding : String) : Except BError (List (Nat × Nat)) :=
  if strToUpper padding = "VALID" then
    .ok (List.replicate inShape.length (0, 0))
  else if strToUpper padding = "SAME" ∨ strToUpper padding = "SAME_LOWER" then
    let padSizes := (List.range inShape.length).map
      (padTotalFun inShape filterShape strides dilation)
    if strToUpper padding = "SAME" then
      .ok (padSizes.map (fun p => (p / 2, p - p / 2)))
    else
      .ok (padSizes.map (fun p => (p - p / 2, p / 2)))
  else
    .error (.unknownPaddingMode (strToUpper padding))

/-- Total padding for one dimension as the specification words it:
`max(0, (outSize-1)*stride + 1 + (kernel-1)*dilation - inSize)` where
`outSize = ceil(inSize/stride)`, with a genuine rational ceiling.  Stated
from the spec's words, to be compared with the source's computation. -/
def specSameTotal (size kernel stride dilation : Nat) : Nat :=
  (max 0 (((⌈(size : ℚ) / (stride : ℚ)⌉₊ : Int) - 1) * stride + 1
    + ((kernel : Int) - 1) * dilation - size)).toNat

/-- Decidable equality of settled results, for evaluating concrete runs. -/
def exceptDecEq {ε α : Type} [DecidableEq ε] [DecidableEq α] :
    DecidableEq (Except ε α) := fun x y =>
  match x, y with
  | .ok a, .ok b =>
    if h : a = b then .isTrue (by rw [h])
    else .isFalse (fun hh => by cases hh; exact h rfl)
  | .error a, .error b =>
    if h : a = b then .isTrue (by rw [h])
    else .isFalse (fun hh => by cases hh; exact h rfl)
  | .ok _, .error _ => .isFalse (fun hh => by cases hh)
  | .error _, .ok _ => .isFalse (fun hh => by cases hh)

instance {ε α : Type} [DecidableEq ε] [DecidableEq α] :
    DecidableEq (Except ε α) := exceptDecEq

/-- Backend state after `malloc 4 none` on a fresh instance, the starting
point of the concrete refcount-lifecycle run. -/
def lifecycleDemoState : CPUState :=
  { buffers := setSlot initState.buffers 1 (some ⟨1, List.replicate 4 0⟩),
    nextSlot := 2 }

end JaxJs

namespace JaxJs

/-- C1: Pool/poolTranspose round trip.  Pooling a tracker of shape `[7, 12]`
with window `[2,2]` and strides `[1,2]` yields shape `[6,6,2,2]`, whose
composed index expression evaluates (with validity true) to flat index 0 at
`(0,0,0,0)`, 1 at `(0,0,0,1)`, 12 at `(0,0,1,0)`, and 20 at `(0,4,1,0)`;
and composing `poolTranspose` with the same parameters back to shape
`[7,12]` gives, for every `(i,j)` in `[0,7)×[0,12)` and every combination
of the synthesized extra coordinates, a pair `(x, valid)` with
`valid ⟹ x = i*12 + j`. -/
theorem pool_poolTranspose_roundtrip :
    (pool (fromShape [7, 12]) [2, 2] [1, 2]).shape = [6, 6, 2, 2]
    ∧ (pool (fromShape [7, 12]) [2, 2] [1, 2]).eval [0, 0, 0, 0] = (0, true)
    ∧ (pool (fromShape [7, 12]) [2, 2] [1, 2]).eval [0, 0, 0, 1] = (1, true)
    ∧ (pool (fromShape [7, 12]) [2, 2] [1, 2]).eval [0, 0, 1, 0] = (12, true)
    ∧ (pool (fromShape [7, 12]) [2, 2] [1, 2]).eval [0, 4, 1, 0] = (20, true)
    ∧ (poolTranspose (pool (fromShape [7, 12]) [2, 2] [1, 2])
        [7, 12] [2, 2] [1, 2]).shape.take 2 = [7, 12]
    ∧ ∀ (i : Fin 7) (j : Fin 12) (a : Fin 2) (b : Fin 2),
        ((poolTranspose (pool (fromShape [7, 12]) [2, 2] [1, 2])
            [7, 12] [2, 2] [1, 2]).eval
          [(i : Int), (j : Int), (a : Int), (b : Int)]).2 = true →
        ((poolTranspose (pool (fromShape [7, 12]) [2, 2] [1, 2])
            [7, 12] [2, 2] [1, 2]).eval
          [(i : Int), (j : Int), (a : Int), (b : Int)]).1
          = (i : Int) * 12 + (j : Int) := by
  decide

/-- C1 witness: the round-trip property instantiated at coordinate
`(0, 0, 0, 0)`, whose validity hypothesis holds. -/
theorem pool_poolTranspose_roundtrip_witness :
    ((poolTranspose (pool (fromShape [7, 12]) [2, 2] [1, 2])
        [7, 12] [2, 2] [1, 2]).eval [0, 0, 0, 0]).1 = 0 :=
  pool_poolTranspose_roundtrip.2.2.2.2.2.2 0 0 0 0 (by decide)

/-- Indexwise overwrites leave the length of the output unchanged. -/
theorem foldl_set_length (g : Nat → Int) (idxs : List Nat) (c : List Int) :
    (idxs.foldl (fun acc i => acc.set i (g i)) c).length = c.length := by
  induction idxs generalizing c with
  | nil => rfl
  | cons i is ih => simpa using ih (c.set i (g i))

/-- The sequential write loop over positions `[0, n)` stores `g i` at every
position `i < n` inside the output's range. -/
theorem foldl_set_getD (g : Nat → Int) :
    ∀ (n : Nat) (c : List Int) (i : Nat), i < n → i < c.length →
      ((List.range n).foldl (fun acc j => acc.set j (g j)) c).getD i 0 = g i := by
  intro n
  induction n with
  | zero => intro c i hin _; omega
  | succ m ih =>
    intro c i hin hic
    rw [List.range_succ, List.foldl_append]
    simp only [List.foldl_cons, List.foldl_nil]
    have hlen : ((List.range m).foldl (fun acc j => acc.set j (g j)) c).length
        = c.length := foldl_set_length g _ c
    by_cases him : i = m
    · subst him
      rw [List.getD_eq_getElem _ _ (by rw [List.length_set, hlen]; exact hic)]
      exact List.getElem_set_self _
    · have hlt : i < m := by omega
      rw [List.getD_eq_getElem _ _ (by rw [List.length_set, hlen]; exact hic)]
      rw [List.getElem_set_ne (by omega)]
      rw [← List.getD_eq_getElem _ 0 (by rw [hlen]; exact hic)]
      exact ih c i hlt hic

/-- Sequencing a settled successful future is application. -/
theorem except_bind_ok {ε α β : Type} (a : α) (f : α → Except ε β) :
    (Except.ok a >>= f) = f a := rfl

/-- C2: the CPU backend's `Add`/`Mul` handlers store, at every output
position `i`, the combination of the two loaded values, each loaded value
being the input cell at the input tracker's evaluated index when its
validity holds and 0 otherwise; `executeOpSync` on live slots runs exactly
that handler over the fetched buffers and writes the result back to the
output slot; and the end-to-end `Add` run on `[1,2,3,4]` and
`[10,20,30,40]` with identity trackers over shape `[4]` yields
`[11,22,33,44]`. -/
theorem cpu_elementwise_op_semantics :
    (∀ (f : Int → Int → Int) (a : List Int) (asT : ShapeTracker)
        (b : List Int) (bsT : ShapeTracker) (c : List Int) (i : Nat),
        i < c.length →
        (cpuBinOp f a asT b bsT c).getD i 0
          = f (loadVal a asT i) (loadVal b bsT i))
    ∧ (∀ (st : CPUState) (sa sb sc : Nat) (ea eb ec : SlotEntry)
        (asT bsT : ShapeTracker),
        st.buffers sa = some ea → st.buffers sb = some eb →
        st.buffers sc = some ec →
        executeOpSync .Add [sa, sb] [asT, bsT] [sc] st
          = .ok (writeBuffer st sc
              (cpuBinOp (· + ·) ea.buffer asT eb.buffer bsT ec.buffer))
        ∧ executeOpSync .Mul [sa, sb] [asT, bsT] [sc] st
          = .ok (writeBuffer st sc
              (cpuBinOp (· * ·) ea.buffer asT eb.buffer bsT ec.buffer)))
    ∧ runAddDemo = .ok [11, 22, 33, 44] := by
  refine ⟨?_, ?_, ?_⟩
  · intro f a asT b bsT c i hic
    exact foldl_set_getD _ c.length c i hic hic
  · intro st sa sb sc ea eb ec asT bsT hsa hsb hsc
    constructor
    · simp [executeOpSync, List.mapM.loop, getBuffer, hsa, hsb, hsc,
        except_bind_ok]
    · simp [executeOpSync, List.mapM.loop, getBuffer, hsa, hsb, hsc,
        except_bind_ok]
  · decide

/-- C2 witness: position 0 of the `Add` loop on the concrete demo inputs,
and `executeOpSync` on three live slots of a concrete backend state
reducing to the handler on the fetched buffers. -/
theorem cpu_elementwise_op_semantics_witness :
    ((cpuBinOp (fun x y => x + y) [1, 2, 3, 4] (fromShape [4])
        [10, 20, 30, 40] (fromShape [4]) [0, 0, 0, 0]).getD 0 0
      = loadVal [1, 2, 3, 4] (fromShape [4]) 0
        + loadVal [10, 20, 30, 40] (fromShape [4]) 0)
    ∧ (executeOpSync .Add [1, 2] [fromShape [1], fromShape [1]] [3]
        { buffers := setSlot (setSlot (setSlot initState.buffers 1
            (some ⟨1, [7]⟩)) 2 (some ⟨1, [8]⟩)) 3 (some ⟨1, [0]⟩),
          nextSlot := 4 }
      = .ok (writeBuffer
          { buffers := setSlot (setSlot (setSlot initState.buffers 1
              (some ⟨1, [7]⟩)) 2 (some ⟨1, [8]⟩)) 3 (some ⟨1, [0]⟩),
            nextSlot := 4 } 3
          (cpuBinOp (· + ·) [7] (fromShape [1]) [8] (fromShape [1]) [0]))
      ∧ executeOpSync .Mul [1, 2] [fromShape [1], fromShape [1]] [3]
        { buffers := setSlot (setSlot (setSlot initState.buffers 1
            (some ⟨1, [7]⟩)) 2 (some ⟨1, [8]⟩)) 3 (some ⟨1, [0]⟩),
          nextSlot := 4 }
      = .ok (writeBuffer
          { buffers := setSlot (setSlot (setSlot initState.buffers 1
              (some ⟨1, [7]⟩)) 2 (some ⟨1, [8]⟩)) 3 (some ⟨1, [0]⟩),
            nextSlot := 4 } 3
          (cpuBinOp (· * ·) [7] (fromShape [1]) [8] (fromShape [1]) [0]))) :=
  ⟨cpu_elementwise_op_semantics.1 (fun x y => x + y) [1, 2, 3, 4]
    (fromShape [4]) [10, 20, 30, 40] (fromShape [4]) [0, 0, 0, 0] 0
    (by decide),
   cpu_elementwise_op_semantics.2.1
    { buffers := setSlot (setSlot (setSlot initState.buffers 1
        (some ⟨1, [7]⟩)) 2 (some ⟨1, [8]⟩)) 3 (some ⟨1, [0]⟩),
      nextSlot := 4 }
    1 2 3 ⟨1, [7]⟩ ⟨1, [8]⟩ ⟨1, [0]⟩ (fromShape [1]) (fromShape [1])
    (by decide) (by decide) (by decide)⟩

/-- Updating a slot and looking it up returns the update. -/
theorem setSlot_self (m : Nat → Option SlotEntry) (k : Nat)
    (v : Option SlotEntry) : setSlot m k v k = v := by
  simp [setSlot]

/-- Anatomy of a successful `malloc`: the returned handle is the old
`nextSlot`, the counter is incremented, and the fresh entry has reference
count 1 and holds `initialData` when it was supplied. -/
theorem malloc_ok_spec (st : CPUState) (size : Nat)
    (initialData : Option (List Int)) (s : Nat) (st₁ : CPUState)
    (h : malloc size initialData st = .ok (s, st₁)) :
    s = st.nextSlot ∧ st₁.nextSlot = st.nextSlot + 1
    ∧ ∃ buf, st₁.buffers = setSlot st.buffers st.nextSlot (some ⟨1, buf⟩)
        ∧ (initialData = some buf ∨ buf = List.replicate size 0) := by
  cases initialData with
  | none =>
    simp only [malloc, Except.ok.injEq, Prod.mk.injEq] at h
    obtain ⟨h1, h2⟩ := h
    subst h1
    subst h2
    exact ⟨rfl, rfl, List.replicate size 0, rfl, Or.inr rfl⟩
  | some d =>
    by_cases hd : d.length ≠ size
    · simp [malloc, hd] at h
    · simp only [malloc, hd, if_false, Except.ok.injEq, Prod.mk.injEq] at h
      obtain ⟨h1, h2⟩ := h
      subst h1
      subst h2
      exact ⟨rfl, rfl, d, rfl, Or.inl rfl⟩

/-- Effect of `incRef` on a live slot. -/
theorem incRef_some (st : CPUState) (s : Nat) (e : SlotEntry)
    (hs : st.buffers s = some e) :
    incRef s st
      = .ok { st with buffers := setSlot st.buffers s (some { e with ref := e.ref + 1 }) } := by
  unfold incRef
  rw [hs]

/-- Effect of `decRef` on a live slot whose count reaches zero: the entry
is removed. -/
theorem decRef_some_free (st : CPUState) (s : Nat) (e : SlotEntry)
    (hs : st.buffers s = some e) (h1 : e.ref - 1 = 0) :
    decRef s st = .ok { st with buffers := setSlot st.buffers s none } := by
  unfold decRef
  rw [hs]
  simp [h1]

/-- Effect of `decRef` on a live slot whose count stays positive. -/
theorem decRef_some_keep (st : CPUState) (s : Nat) (e : SlotEntry)
    (hs : st.buffers s = some e) (h1 : ¬e.ref - 1 = 0) :
    decRef s st
      = .ok { st with buffers := setSlot st.buffers s (some { e with ref := e.ref - 1 }) } := by
  unfold decRef
  rw [hs]
  simp [h1]

/-- Every operation on an unknown or freed slot fails with `SlotError`. -/
theorem opsOnStale (st : CPUState) (s : Nat) (hs : st.buffers s = none) :
    (∀ u v, readSync s u v st = .error (.slotError s))
    ∧ incRef s st = .error (.slotError s)
    ∧ decRef s st = .error (.slotError s) := by
  refine ⟨fun u v => ?_, ?_, ?_⟩
  · unfold readSync getBuffer
    rw [hs]
    rfl
  · unfold incRef
    rw [hs]
  · unfold decRef
    rw [hs]

/-- `readSync` succeeds on a live slot. -/
theorem readSync_live (st : CPUState) (s : Nat) (e : SlotEntry)
    (hs : st.buffers s = some e) (u v : Option Nat) :
    (readSync s u v st).isOk = true := by
  unfold readSync getBuffer
  rw [hs]
  rfl

/-- Lifecycle of a slot whose entry currently has reference count 1: one
`decRef` frees it and all further operations fail with `SlotError`; two
`incRef` calls require exactly three `decRef` calls to free it, `readSync`
still succeeding after the first two. -/
theorem lifecycle_steps (st₁ : CPUState) (s : Nat) (buf : List Int)
    (hs : st₁.buffers s = some ⟨1, buf⟩) :
    (∃ st₂, decRef s st₁ = .ok st₂ ∧ st₂.buffers s = none
      ∧ (∀ u v, readSync s u v st₂ = .error (.slotError s))
      ∧ incRef s st₂ = .error (.slotError s)
      ∧ decRef s st₂ = .error (.slotError s))
    ∧ (∃ stA stB stC stD stE,
        incRef s st₁ = .ok stA ∧ incRef s stA = .ok stB
        ∧ decRef s stB = .ok stC ∧ (readSync s none none stC).isOk = true
        ∧ decRef s stC = .ok stD ∧ (readSync s none none stD).isOk = true
        ∧ decRef s stD = .ok stE
        ∧ (∀ u v, readSync s u v stE = .error (.slotError s))
        ∧ incRef s stE = .error (.slotError s)
        ∧ decRef s stE = .error (.slotError s)) := by
  constructor
  · refine ⟨_, decRef_some_free st₁ s ⟨1, buf⟩ hs (by norm_num), setSlot_self _ _ _,
      (opsOnStale _ s (setSlot_self _ _ _)).1,
      (opsOnStale _ s (setSlot_self _ _ _)).2.1,
      (opsOnStale _ s (setSlot_self _ _ _)).2.2⟩
  · refine ⟨_, _, _, _, _,
      incRef_some st₁ s ⟨1, buf⟩ hs,
      incRef_some _ s ⟨1 + 1, buf⟩ (setSlot_self _ _ _),
      decRef_some_keep _ s ⟨1 + 1 + 1, buf⟩ (setSlot_self _ _ _) (by norm_num),
      readSync_live _ s ⟨1 + 1 + 1 - 1, buf⟩ (setSlot_self _ _ _) none none,
      decRef_some_keep _ s ⟨1 + 1 + 1 - 1, buf⟩ (setSlot_self _ _ _) (by norm_num),
      readSync_live _ s ⟨1 + 1 + 1 - 1 - 1, buf⟩ (setSlot_self _ _ _) none none,
      decRef_some_free _ s ⟨1 + 1 + 1 - 1 - 1, buf⟩ (setSlot_self _ _ _) (by norm_num),
      (opsOnStale _ s (setSlot_self _ _ _)).1,
      (opsOnStale _ s (setSlot_self _ _ _)).2.1,
      (opsOnStale _ s (setSlot_self _ _ _)).2.2⟩

/-- C3: refcount lifecycle of the CPU backend.  A slot returned by `malloc`
starts at reference count 1; one `decRef` frees it, after which every
`readSync`, `incRef`, or `decRef` on the handle fails with `SlotError`;
and after two `incRef` calls, exactly three `decRef` calls free it, with
`readSync` still succeeding after the first two and failing with
`SlotError` only after the third. -/
theorem cpu_refcount_lifecycle (st : CPUState) (size : Nat)
    (initialData : Option (List Int)) (s : Nat) (st₁ : CPUState)
    (h : malloc size initialData st = .ok (s, st₁)) :
    (∃ buf, st₁.buffers s = some ⟨1, buf⟩)
    ∧ (∃ st₂, decRef s st₁ = .ok st₂ ∧ st₂.buffers s = none
        ∧ (∀ u v, readSync s u v st₂ = .error (.slotError s))
        ∧ incRef s st₂ = .error (.slotError s)
        ∧ decRef s st₂ = .error (.slotError s))
    ∧ (∃ stA stB stC stD stE,
        incRef s st₁ = .ok stA ∧ incRef s stA = .ok stB
        ∧ decRef s stB = .ok stC ∧ (readSync s none none stC).isOk = true
        ∧ decRef s stC = .ok stD ∧ (readSync s none none stD).isOk = true
        ∧ decRef s stD = .ok stE
        ∧ (∀ u v, readSync s u v stE = .error (.slotError s))
        ∧ incRef s stE = .error (.slotError s)
        ∧ decRef s stE = .error (.slotError s)) := by
  obtain ⟨hs', _, buf, hbuf, _⟩ := malloc_ok_spec st size initialData s st₁ h
  have hlook : st₁.buffers s = some ⟨1, buf⟩ := by
    rw [hbuf, hs']
    exact setSlot_self _ _ _
  exact ⟨⟨buf, hlook⟩, (lifecycle_steps st₁ s buf hlook).1,
    (lifecycle_steps st₁ s buf hlook).2⟩

/-- C3 witness: the lifecycle run on a fresh backend after `malloc 4 none`,
which returns slot 1. -/
theorem cpu_refcount_lifecycle_witness :
    (∃ buf, lifecycleDemoState.buffers 1 = some ⟨1, buf⟩)
    ∧ (∃ st₂, decRef 1 lifecycleDemoState = .ok st₂ ∧ st₂.buffers 1 = none
        ∧ (∀ u v, readSync 1 u v st₂ = .error (.slotError 1))
        ∧ incRef 1 st₂ = .error (.slotError 1)
        ∧ decRef 1 st₂ = .error (.slotError 1))
    ∧ (∃ stA stB stC stD stE,
        incRef 1 lifecycleDemoState = .ok stA ∧ incRef 1 stA = .ok stB
        ∧ decRef 1 stB = .ok stC ∧ (readSync 1 none none stC).isOk = true
        ∧ decRef 1 stC = .ok stD ∧ (readSync 1 none none stD).isOk = true
        ∧ decRef 1 stD = .ok stE
        ∧ (∀ u v, readSync 1 u v stE = .error (.slotError 1))
        ∧ incRef 1 stE = .error (.slotError 1)
        ∧ decRef 1 stE = .error (.slotError 1)) :=
  cpu_refcount_lifecycle initState 4 none 1 lifecycleDemoState rfl

/-- C9: `malloc` with `initialData` of the wrong byte length fails with
`SizeMismatch`; with a matching length it succeeds and the fresh slot
stores exactly `initialData`. -/
theorem malloc_size_mismatch (st : CPUState) (size : Nat) (d : List Int) :
    (d.length ≠ size → malloc size (some d) st = .error .sizeMismatch)
    ∧ (d.length = size →
        ∃ st₁, malloc size (some d) st = .ok (st.nextSlot, st₁)
          ∧ st₁.buffers st.nextSlot = some ⟨1, d⟩) := by
  constructor
  · intro hne
    simp [malloc, hne]
  · intro heq
    refine ⟨{ buffers := setSlot st.buffers st.nextSlot (some ⟨1, d⟩),
              nextSlot := st.nextSlot + 1 }, ?_, setSlot_self _ _ _⟩
    simp [malloc, heq]

/-- C9 witness: a 3-cell payload into a 2-cell request fails; a matching
2-cell payload is stored verbatim in slot 1 of a fresh backend. -/
theorem malloc_size_mismatch_witness :
    malloc 2 (some [5, 6, 7]) initState = .error .sizeMismatch
    ∧ ∃ st₁, malloc 2 (some [5, 6]) initState = .ok (1, st₁)
        ∧ st₁.buffers 1 = some ⟨1, [5, 6]⟩ :=
  ⟨(malloc_size_mismatch initState 2 [5, 6, 7]).1 (by decide),
   (malloc_size_mismatch initState 2 [5, 6]).2 (by decide)⟩

/-- One memory-management call never decreases the instance-local slot
counter. -/
theorem nextSlot_mono (op : BOp) (st : CPUState) :
    st.nextSlot ≤ (applyOp op st).1.nextSlot := by
  cases op with
  | mallocOp size initialData =>
    cases hm : malloc size initialData st with
    | ok p =>
      obtain ⟨s, st'⟩ := p
      obtain ⟨_, h2, _⟩ := malloc_ok_spec st size initialData s st' hm
      simp [applyOp, hm, h2]
    | error e => simp [applyOp, hm]
  | incRefOp s =>
    cases hb : st.buffers s with
    | none => simp [applyOp, incRef, hb]
    | some e => simp [applyOp, incRef, hb]
  | decRefOp s =>
    cases hb : st.buffers s with
    | none => simp [applyOp, decRef, hb]
    | some e =>
      by_cases h1 : e.ref - 1 = 0
      · simp [applyOp, decRef, hb, h1]
      · simp [applyOp, decRef, hb, h1]

/-- A call that hands out a slot is a successful `malloc`: the handle is the
old counter value and the counter advances by one. -/
theorem applyOp_ret (op : BOp) (st : CPUState) (s : Nat)
    (h : (applyOp op st).2 = some s) :
    s = st.nextSlot ∧ (applyOp op st).1.nextSlot = st.nextSlot + 1 := by
  cases op with
  | mallocOp size initialData =>
    cases hm : malloc size initialData st with
    | ok p =>
      obtain ⟨s', st'⟩ := p
      obtain ⟨h1, h2, _⟩ := malloc_ok_spec st size initialData s' st' hm
      simp only [applyOp, hm] at h ⊢
      simp only [Option.some.injEq] at h
      constructor
      · omega
      · exact h2
    | error e => simp [applyOp, hm] at h
  | incRefOp s' =>
    cases hb : st.buffers s' with
    | none => simp [applyOp, incRef, hb] at h
    | some e => simp [applyOp, incRef, hb] at h
  | decRefOp s' =>
    cases hb : st.buffers s' with
    | none => simp [applyOp, decRef, hb] at h
    | some e =>
      by_cases h1 : e.ref - 1 = 0
      · simp [applyOp, decRef, hb, h1] at h
      · simp [applyOp, decRef, hb, h1] at h

/-- The refcount/handle invariant is preserved by every call. -/
theorem refInv_applyOp (op : BOp) (st : CPUState) (h : RefInv st) :
    RefInv (applyOp op st).1 := by
  cases op with
  | mallocOp size initialData =>
    cases hm : malloc size initialData st with
    | ok p =>
      obtain ⟨s', st'⟩ := p
      obtain ⟨h1, h2, buf, h3, _⟩ := malloc_ok_spec st size initialData s' st' hm
      simp only [applyOp, hm]
      intro s e hse
      rw [h3] at hse
      simp only [setSlot] at hse
      by_cases hsk : s = st.nextSlot
      · rw [if_pos hsk] at hse
        simp only [Option.some.injEq] at hse
        subst hse
        exact ⟨by norm_num, by omega⟩
      · rw [if_neg hsk] at hse
        obtain ⟨he, hlt⟩ := h s e hse
        exact ⟨he, by omega⟩
    | error e => simpa [applyOp, hm] using h
  | incRefOp s' =>
    cases hb : st.buffers s' with
    | none => simpa [applyOp, incRef, hb] using h
    | some e0 =>
      simp only [applyOp, incRef, hb]
      intro s e hse
      simp only [setSlot] at hse
      by_cases hsk : s = s'
      · rw [if_pos hsk] at hse
        simp only [Option.some.injEq] at hse
        subst hse
        obtain ⟨h1, h2⟩ := h s' e0 hb
        refine ⟨?_, by simpa [hsk] using h2⟩
        show 1 ≤ e0.ref + 1
        omega
      · rw [if_neg hsk] at hse
        exact h s e hse
  | decRefOp s' =>
    cases hb : st.buffers s' with
    | none => simpa [applyOp, decRef, hb] using h
    | some e0 =>
      by_cases h1 : e0.ref - 1 = 0
      · simp only [applyOp, decRef, hb, h1, if_true]
        intro s e hse
        simp only [setSlot] at hse
        by_cases hsk : s = s'
        · rw [if_pos hsk] at hse
          cases hse
        · rw [if_neg hsk] at hse
          exact h s e hse
      · simp only [applyOp, decRef, hb, h1, if_false]
        intro s e hse
        simp only [setSlot] at hse
        by_cases hsk : s = s'
        · rw [if_pos hsk] at hse
          simp only [Option.some.injEq] at hse
          subst hse
          obtain ⟨ha, hb'⟩ := h s' e0 hb
          refine ⟨?_, by simpa [hsk] using hb'⟩
          show 1 ≤ e0.ref - 1
          omega
        · rw [if_neg hsk] at hse
          exact h s e hse

/-- The slot counter never decreases across a whole run. -/
theorem runOps_nextSlot_mono :
    ∀ (ops : List BOp) (st : CPUState),
      st.nextSlot ≤ (runOps st ops).1.nextSlot := by
  intro ops
  induction ops with
  | nil => intro st; exact le_refl _
  | cons op rest ih =>
    intro st
    exact le_trans (nextSlot_mono op st) (ih (applyOp op st).1)

/-- Main run invariant: along any call sequence from a state satisfying the
invariant, the handed-out slot handles are pairwise strictly increasing,
bounded below by the starting counter and above by the final counter, and
the invariant still holds at the end. -/
theorem runOps_spec :
    ∀ (ops : List BOp) (st : CPUState), RefInv st →
      List.Pairwise (· < ·) (runOps st ops).2
      ∧ (∀ s ∈ (runOps st ops).2, st.nextSlot ≤ s)
      ∧ (∀ s ∈ (runOps st ops).2, s < (runOps st ops).1.nextSlot)
      ∧ RefInv (runOps st ops).1 := by
  intro ops
  induction ops with
  | nil =>
    intro st h
    refine ⟨List.Pairwise.nil, ?_, ?_, h⟩
    · intro s hsmem
      simp [runOps] at hsmem
    · intro s hsmem
      simp [runOps] at hsmem
  | cons op rest ih =>
    intro st h
    obtain ⟨hp, hlow, hup, hinv⟩ := ih (applyOp op st).1 (refInv_applyOp op st h)
    have hmono := nextSlot_mono op st
    have hrun := runOps_nextSlot_mono rest (applyOp op st).1
    simp only [runOps]
    cases hr : (applyOp op st).2 with
    | none =>
      simp only [List.nil_append]
      exact ⟨hp, fun s hsmem => le_trans hmono (hlow s hsmem), hup, hinv⟩
    | some s0 =>
      obtain ⟨hs0, hns⟩ := applyOp_ret op st s0 hr
      simp only [List.singleton_append]
      refine ⟨?_, ?_, ?_, hinv⟩
      · rw [List.pairwise_cons]
        refine ⟨fun b hb => ?_, hp⟩
        have := hlow b hb
        omega
      · intro s hsmem
        rcases List.mem_cons.mp hsmem with rfl | hmem
        · omega
        · have := hlow s hmem
          omega
      · intro s hsmem
        rcases List.mem_cons.mp hsmem with rfl | hmem
        · omega
        · exact hup s hmem

/-- C10: slot handles of a CPU backend instance are never reused.  Over any
sequence of `malloc`/`incRef`/`decRef` calls from a fresh instance, the
handles handed out by `malloc` are strictly increasing (so a freed handle
can never later denote a live buffer, every live handle lying below the
monotone instance-local counter), and every live slot keeps reference
count at least 1. -/
theorem cpu_slot_handles_monotone (ops : List BOp) :
    List.Pairwise (· < ·) (runOps initState ops).2
    ∧ (∀ s ∈ (runOps initState ops).2, s < (runOps initState ops).1.nextSlot)
    ∧ RefInv (runOps initState ops).1 := by
  have h0 : RefInv initState := by
    intro s e hse
    simp [initState] at hse
  obtain ⟨hp, _, hup, hinv⟩ := runOps_spec ops initState h0
  exact ⟨hp, hup, hinv⟩

/-- C10 witness: the invariant on a concrete run of four calls. -/
theorem cpu_slot_handles_monotone_witness :
    List.Pairwise (· < ·)
      (runOps initState
        [BOp.mallocOp 4 none, BOp.incRefOp 1, BOp.decRefOp 1,
          BOp.mallocOp 2 none]).2
    ∧ (∀ s ∈ (runOps initState
        [BOp.mallocOp 4 none, BOp.incRefOp 1, BOp.decRefOp 1,
          BOp.mallocOp 2 none]).2,
        s < (runOps initState
          [BOp.mallocOp 4 none, BOp.incRefOp 1, BOp.decRefOp 1,
            BOp.mallocOp 2 none]).1.nextSlot)
    ∧ RefInv (runOps initState
        [BOp.mallocOp 4 none, BOp.incRefOp 1, BOp.decRefOp 1,
          BOp.mallocOp 2 none]).1 :=
  cpu_slot_handles_monotone
    [BOp.mallocOp 4 none, BOp.incRefOp 1, BOp.decRefOp 1, BOp.mallocOp 2 none]

/-- For positive divisors, the source's `(i + s - 1) / s` computes the
rational ceiling of `i / s`. -/
theorem ceil_div_eq (i s : Nat) (hs : 0 < s) :
    ⌈(i : ℚ) / (s : ℚ)⌉₊ = (i + s - 1) / s := by
  rcases Nat.eq_zero_or_pos i with hi | hi
  · subst hi
    rw [Nat.cast_zero, zero_div, Nat.ceil_zero]
    symm
    apply Nat.div_eq_of_lt
    omega
  · set n := (i + s - 1) / s with hndef
    set r := (i + s - 1) % s with hrdef
    have hdm : s * n + r = i + s - 1 := Nat.div_add_mod (i + s - 1) s
    have hmlt : r < s := Nat.mod_lt (i + s - 1) hs
    have hn1 : 1 ≤ n := by
      rw [hndef]
      exact (Nat.one_le_div_iff hs).mpr (by omega)
    have hn : n ≠ 0 := by omega
    rw [Nat.ceil_eq_iff hn]
    have hle : i ≤ n * s := by
      rw [mul_comm n s]
      omega
    have hgt : (n - 1) * s < i := by
      rw [Nat.sub_mul, one_mul, mul_comm n s]
      omega
    have hsQ : (0 : ℚ) < (s : ℚ) := by exact_mod_cast hs
    constructor
    · rw [lt_div_iff₀ hsQ]
      exact_mod_cast hgt
    · rw [div_le_iff₀ hsQ]
      exact_mod_cast hle

/-- The code's per-dimension total equals the specification's formula with
a genuine ceiling, for a positive stride. -/
theorem padTotal_eq_spec (ish fsh str dil : List Nat) (d : Nat)
    (h : 0 < str.getD d 0) :
    padTotalFun ish fsh str dil d
      = specSameTotal (ish.getD d 0) (fsh.getD d 0) (str.getD d 0)
          (dil.getD d 0) := by
  unfold padTotalFun specSameTotal
  rw [ceil_div_eq _ _ h]

/-- C4: the padding policy is total over the three tokens: `VALID` yields
`(0, 0)` on every dimension, and `SAME`/`SAME_LOWER` yield per dimension a
pair summing to `max(0, (outSize-1)*stride + 1 + (kernel-1)*dilation -
inSize)` with `outSize = ceil(inSize/stride)`. -/
theorem padding_policy_total (ish fsh str dil : List Nat)
    (hstr : ∀ x ∈ str, 0 < x)
    (hl2 : str.length = ish.length) :
    padtypeToPads ish fsh str dil "VALID"
      = .ok (List.replicate ish.length (0, 0))
    ∧ (∀ tok, (tok = "SAME" ∨ tok = "SAME_LOWER") →
        ∃ pads, padtypeToPads ish fsh str dil tok = .ok pads
          ∧ pads.length = ish.length
          ∧ ∀ d, d < ish.length →
              (pads.getD d (0, 0)).1 + (pads.getD d (0, 0)).2
                = specSameTotal (ish.getD d 0) (fsh.getD d 0)
                    (str.getD d 0) (dil.getD d 0)) := by
  have hpos : ∀ d, d < ish.length → 0 < str.getD d 0 := by
    intro d hd
    rw [List.getD_eq_getElem _ _ (by omega)]
    exact hstr _ (List.getElem_mem _)
  constructor
  · rfl
  · intro tok htok
    rcases htok with rfl | rfl
    · refine ⟨_, rfl, by simp, ?_⟩
      intro d hd
      rw [List.getD_eq_getElem _ _ (by simpa using hd)]
      simp only [List.getElem_map, List.getElem_range]
      rw [← padTotal_eq_spec ish fsh str dil d (hpos d hd)]
      show padTotalFun ish fsh str dil d / 2
          + (padTotalFun ish fsh str dil d
            - padTotalFun ish fsh str dil d / 2)
          = padTotalFun ish fsh str dil d
      omega
    · refine ⟨_, rfl, by simp, ?_⟩
      intro d hd
      rw [List.getD_eq_getElem _ _ (by simpa using hd)]
      simp only [List.getElem_map, List.getElem_range]
      rw [← padTotal_eq_spec ish fsh str dil d (hpos d hd)]
      show (padTotalFun ish fsh str dil d
            - padTotalFun ish fsh str dil d / 2)
          + padTotalFun ish fsh str dil d / 2
          = padTotalFun ish fsh str dil d
      omega

/-- C4 witness: the policy on a one-dimensional instance with stride 3. -/
theorem padding_policy_total_witness :
    padtypeToPads [5] [4] [3] [2] "VALID"
      = .ok (List.replicate ([5] : List Nat).length (0, 0))
    ∧ (∀ tok, (tok = "SAME" ∨ tok = "SAME_LOWER") →
        ∃ pads, padtypeToPads [5] [4] [3] [2] tok = .ok pads
          ∧ pads.length = ([5] : List Nat).length
          ∧ ∀ d, d < ([5] : List Nat).length →
              (pads.getD d (0, 0)).1 + (pads.getD d (0, 0)).2
                = specSameTotal (([5] : List Nat).getD d 0)
                    (([4] : List Nat).getD d 0) (([3] : List Nat).getD d 0)
                    (([2] : List Nat).getD d 0)) :=
  padding_policy_total [5] [4] [3] [2] (by decide) (by decide)

/-- C5: per-dimension split as the testable-properties section states it:
`SAME` puts the floor of the half before and the ceiling after (so an odd
total gives the smaller half to the before side), and `SAME_LOWER` swaps
the two sides. -/
theorem padding_split_sides (ish fsh str dil : List Nat) :
    ∃ pads padsL,
      padtypeToPads ish fsh str dil "SAME" = .ok pads
      ∧ padtypeToPads ish fsh str dil "SAME_LOWER" = .ok padsL
      ∧ pads.length = ish.length ∧ padsL.length = ish.length
      ∧ ∀ d, d < ish.length →
          (pads.getD d (0, 0)).1
            = ((pads.getD d (0, 0)).1 + (pads.getD d (0, 0)).2) / 2
          ∧ (pads.getD d (0, 0)).2
            = ((pads.getD d (0, 0)).1 + (pads.getD d (0, 0)).2 + 1) / 2
          ∧ padsL.getD d (0, 0)
            = ((pads.getD d (0, 0)).2, (pads.getD d (0, 0)).1) := by
  refine ⟨_, _, rfl, rfl, by simp, by simp, ?_⟩
  intro d hd
  rw [List.getD_eq_getElem _ _ (by simpa using hd),
    List.getD_eq_getElem _ _ (by simpa using hd)]
  simp only [List.getElem_map, List.getElem_range]
  refine ⟨?_, ?_, ?_⟩
  · show padTotalFun ish fsh str dil d / 2
      = (padTotalFun ish fsh str dil d / 2
        + (padTotalFun ish fsh str dil d
          - padTotalFun ish fsh str dil d / 2)) / 2
    omega
  · show padTotalFun ish fsh str dil d
        - padTotalFun ish fsh str dil d / 2
      = (padTotalFun ish fsh str dil d / 2
        + (padTotalFun ish fsh str dil d
          - padTotalFun ish fsh str dil d / 2) + 1) / 2
    omega
  · trivial

/-- C5 witness: the split on an instance whose total padding is odd
(shape 5, kernel 4, stride 3, dilation 2 give total 5). -/
theorem padding_split_sides_witness :
    ∃ pads padsL,
      padtypeToPads [5] [4] [3] [2] "SAME" = .ok pads
      ∧ padtypeToPads [5] [4] [3] [2] "SAME_LOWER" = .ok padsL
      ∧ pads.length = ([5] : List Nat).length
      ∧ padsL.length = ([5] : List Nat).length
      ∧ ∀ d, d < ([5] : List Nat).length →
          (pads.getD d (0, 0)).1
            = ((pads.getD d (0, 0)).1 + (pads.getD d (0, 0)).2) / 2
          ∧ (pads.getD d (0, 0)).2
            = ((pads.getD d (0, 0)).1 + (pads.getD d (0, 0)).2 + 1) / 2
          ∧ padsL.getD d (0, 0)
            = ((pads.getD d (0, 0)).2, (pads.getD d (0, 0)).1) :=
  padding_split_sides [5] [4] [3] [2]

/-- C6 counterexample: at input shape `[3]`, kernel `[2]`, stride `[2]`,
dilation `[1]` the total padding is the odd value 1, and `SAME_LOWER`
returns `(1, 0)` — the before side, not the after side, receives the
larger half, refuting the component-design wording. -/
theorem padding_split_design_counterexample :
    padtypeToPads [3] [2] [2] [1] "SAME_LOWER" = .ok [(1, 0)]
    ∧ padtypeToPads [3] [2] [2] [1] "SAME_LOWER" ≠ .ok [(0, 1)] := by
  constructor
  · decide
  · decide

/-- C6 amended: per dimension, `SAME` splits its total `p` exactly as
`(p / 2, p - p / 2)` — the floor of the half before, the ceiling after —
and `SAME_LOWER` returns exactly the mirrored (swapped) pair, so the
before side gets the larger half of an odd total. -/
theorem padding_split_design_amended (ish fsh str dil : List Nat) :
    ∃ pads padsL,
      padtypeToPads ish fsh str dil "SAME" = .ok pads
      ∧ padtypeToPads ish fsh str dil "SAME_LOWER" = .ok padsL
      ∧ ∀ d, d < ish.length →
          (pads.getD d (0, 0)).1
            = ((pads.getD d (0, 0)).1 + (pads.getD d (0, 0)).2) / 2
          ∧ (pads.getD d (0, 0)).2
            = (pads.getD d (0, 0)).1 + (pads.getD d (0, 0)).2
              - ((pads.getD d (0, 0)).1 + (pads.getD d (0, 0)).2) / 2
          ∧ padsL.getD d (0, 0)
            = ((pads.getD d (0, 0)).2, (pads.getD d (0, 0)).1)
          ∧ (padsL.getD d (0, 0)).2 ≤ (padsL.getD d (0, 0)).1 := by
  refine ⟨_, _, rfl, rfl, ?_⟩
  intro d hd
  rw [List.getD_eq_getElem _ _ (by simpa using hd),
    List.getD_eq_getElem _ _ (by simpa using hd)]
  simp only [List.getElem_map, List.getElem_range]
  refine ⟨?_, ?_, ?_, ?_⟩
  · show padTotalFun ish fsh str dil d / 2
      = (padTotalFun ish fsh str dil d / 2
        + (padTotalFun ish fsh str dil d
          - padTotalFun ish fsh str dil d / 2)) / 2
    omega
  · show padTotalFun ish fsh str dil d
        - padTotalFun ish fsh str dil d / 2
      = padTotalFun ish fsh str dil d / 2
        + (padTotalFun ish fsh str dil d
          - padTotalFun ish fsh str dil d / 2)
        - (padTotalFun ish fsh str dil d / 2
          + (padTotalFun ish fsh str dil d
            - padTotalFun ish fsh str dil d / 2)) / 2
    omega
  · trivial
  · show padTotalFun ish fsh str dil d / 2
      ≤ padTotalFun ish fsh str dil d - padTotalFun ish fsh str dil d / 2
    omega

/-- C6 amended witness: the exact floor/ceil and mirrored splits at the
odd-total instance (total 1 splits as `(0, 1)` and `(1, 0)`). -/
theorem padding_split_design_amended_witness :
    ∃ pads padsL,
      padtypeToPads [3] [2] [2] [1] "SAME" = .ok pads
      ∧ padtypeToPads [3] [2] [2] [1] "SAME_LOWER" = .ok padsL
      ∧ ∀ d, d < ([3] : List Nat).length →
          (pads.getD d (0, 0)).1
            = ((pads.getD d (0, 0)).1 + (pads.getD d (0, 0)).2) / 2
          ∧ (pads.getD d (0, 0)).2
            = (pads.getD d (0, 0)).1 + (pads.getD d (0, 0)).2
              - ((pads.getD d (0, 0)).1 + (pads.getD d (0, 0)).2) / 2
          ∧ padsL.getD d (0, 0)
            = ((pads.getD d (0, 0)).2, (pads.getD d (0, 0)).1)
          ∧ (padsL.getD d (0, 0)).2 ≤ (padsL.getD d (0, 0)).1 :=
  padding_split_design_amended [3] [2] [2] [1]

/-- C7 counterexample: the token `"valid"` is none of the three literal
tokens, yet `padtypeToPads` succeeds on it (the source uppercases the
token before matching), refuting the claim as stated. -/
theorem padding_unknown_mode_counterexample :
    ("valid" ≠ "VALID" ∧ "valid" ≠ "SAME" ∧ "valid" ≠ "SAME_LOWER")
    ∧ padtypeToPads [4] [2] [1] [1] "valid" = .ok [(0, 0)] := by
  constructor
  · decide
  · decide

/-- C7 amended: every token whose uppercasing is none of `VALID`, `SAME`,
`SAME_LOWER` makes `padtypeToPads` fail, directly returning an
`UnknownPaddingMode` error. -/
theorem padding_unknown_mode_amended (ish fsh str dil : List Nat)
    (tok : String) (h1 : strToUpper tok ≠ "VALID")
    (h2 : strToUpper tok ≠ "SAME") (h3 : strToUpper tok ≠ "SAME_LOWER") :
    padtypeToPads ish fsh str dil tok
      = .error (.unknownPaddingMode (strToUpper tok)) := by
  unfold padtypeToPads
  rw [if_neg h1, if_neg (fun hor => hor.elim h2 h3)]

/-- C7 amended witness: the unknown token `"bogus"`. -/
theorem padding_unknown_mode_amended_witness :
    padtypeToPads [1] [1] [1] [1] "bogus"
      = .error (.unknownPaddingMode (strToUpper "bogus")) :=
  padding_unknown_mode_amended [1] [1] [1] [1] "bogus" (by decide) (by decide)
    (by decide)

/-- C8: on the CPU backend the asynchronous forms are the synchronous ones
wrapped in an already-resolved future: `read` agrees with `readSync` and
`executeOp` with `executeOpSync` on every input and state, succeeding and
failing identically. -/
theorem async_mirrors_sync :
    (∀ (slot : Nat) (start? count? : Option Nat) (st : CPUState),
        read slot start? count? st = readSync slot start? count? st)
    ∧ (∀ (op : BackendOp) (inputs : List Nat) (shapes : List ShapeTracker)
        (outputs : List Nat) (st : CPUState),
        executeOp op inputs shapes outputs st
          = executeOpSync op inputs shapes outputs st) :=
  ⟨fun _ _ _ _ => rfl, fun _ _ _ _ _ => rfl⟩

end JaxJs
